import Mathlib

/-!
# Meme-Stock-Tracker: a shallow embedding of `src/main.py`

This file embeds the data model and the operations of `main.py` in Lean 4 and
proves properties of the embedded program.

Modelling conventions:
* Python `dict` items fetched from the API (`{"ticker": ..., "mentions": ...}`)
  become `FetchItem` with `Option` fields, since `dict.get` may find the key
  missing; `s.get("ticker", "???")` becomes `Option.getD`.
* Calendar dates are modelled as absolute day numbers (`Nat`): Python
  `datetime` values compare chronologically and `timedelta(days=7)` subtracts
  7 from the day number.  The `"%Y-%m-%d"` rendering done by `strftime` and
  the inverse parse done by `strptime` are modelled by decimal rendering
  (`printNat`) and parsing (`parseNat`) of that day number; the essential
  property used by the code, that formatting then parsing is the identity,
  is proved below (`parseNat_printNat`).
* Python floats are modelled exactly by `ℚ` (true division, real arithmetic).
* The CSV history file is modelled as the list of its data rows, each row the
  triple of string-valued cells `(date, ticker, mentions)` written by
  `csv.DictWriter`; the header row is I/O framing and is not modelled.
* `int(cell)` raising `ValueError` on a malformed cell is modelled by
  `parseNat` returning `none`, and a function that can raise returns `Option`.
-/

/-- One element of the `results` array fetched from the API, and equally one
element of the `spikes` list: a dictionary with optional
`ticker`/`mentions` keys (`mentions`, when present, is an integer). -/
structure FetchItem where
  ticker : Option String
  mentions : Option Nat
deriving DecidableEq, Repr

/-- `s.get("ticker", "???")` from `build_alert_email`. -/
def tickerD (s : FetchItem) : String := s.ticker.getD "???"

/-- `s.get("mentions", 0)` from `build_alert_email` (and
`t.get("mentions", 0)` from `run_alert` / `save_today_mentions`). -/
def mentionsD (s : FetchItem) : Nat := s.mentions.getD 0

/-- One parsed history record as produced by `load_history`:
`{"date": datetime(...), "mentions": int(...)}`, the date as a day number. -/
structure HistEntry where
  date : Nat
  mentions : Nat
deriving DecidableEq, Repr

/-- A data row of the CSV history file: cells `date`, `ticker`, `mentions`,
all strings on disk. -/
structure CsvRow where
  date : String
  ticker : String
  mentions : String
deriving DecidableEq, Repr

/-- The in-memory history: `defaultdict(list)` keyed by ticker.  Tickers with
no records map to `[]`, matching the defaultdict's default. -/
def History : Type := String → List HistEntry

/-! ## Decimal rendering and parsing (the `strftime`/`strptime` and
`str`/`int` pair used by the CSV layer) -/

/-- The character for one decimal digit: code point 48 is `0`. -/
def digitChar (d : Nat) : Char := Char.ofNat (48 + d)

/-- The decimal digit denoted by a character, if any: only the ASCII range
48 to 57 counts, everything else is rejected. -/
def charDigit (c : Char) : Option Nat :=
  if 48 ≤ c.toNat ∧ c.toNat ≤ 57 then some (c.toNat - 48) else none

/-- Little-endian decimal digits of `n`, with explicit fuel so that the
recursion is structural (and hence evaluates inside the kernel). -/
def natDigitsAux : Nat → Nat → List Nat
  | 0, _ => []
  | _ + 1, 0 => []
  | fuel + 1, n + 1 => (n + 1) % 10 :: natDigitsAux fuel ((n + 1) / 10)

/-- Little-endian decimal digits of `n` (`[]` for `0`). -/
def natDigits (n : Nat) : List Nat := natDigitsAux n n

theorem natDigitsAux_eq (fuel n : Nat) (h : n ≤ fuel) :
    natDigitsAux fuel n = Nat.digits 10 n := by
  induction fuel generalizing n with
  | zero =>
    interval_cases n
    simp [natDigitsAux]
  | succ f ih =>
    cases n with
    | zero => simp [natDigitsAux]
    | succ m =>
      rw [natDigitsAux, Nat.digits_def' (by norm_num : (1:ℕ) < 10) (Nat.succ_pos m),
        ih _ (by omega)]

theorem natDigits_eq (n : Nat) : natDigits n = Nat.digits 10 n :=
  natDigitsAux_eq n n (Nat.le_refl n)

/-- Decimal rendering of a natural number (Python `str(n)` for `n ≥ 0`,
also the `"%Y-%m-%d"` rendering of a day number under our date model). -/
def printNat (n : Nat) : String :=
  if n = 0 then "0" else String.mk (((natDigits n).reverse).map digitChar)

/-- Accumulating decimal parse over a character list (most significant
digit first); `none` on any non-digit character. -/
def parseDigits : Nat → List Char → Option Nat
  | acc, [] => some acc
  | acc, c :: cs =>
    match charDigit c with
    | some d => parseDigits (acc * 10 + d) cs
    | none => none

/-- Python `int(s)` on a nonnegative decimal string (and `strptime` under our
date model): fails on the empty string or any non-digit character. -/
def parseNat (s : String) : Option Nat :=
  if s.data = [] then none else parseDigits 0 s.data

theorem charDigit_digitChar {d : Nat} (hd : d < 10) :
    charDigit (digitChar d) = some d := by
  interval_cases d <;> rfl

theorem parseDigits_append (a : Nat) (xs ys : List Char) :
    parseDigits a (xs ++ ys) =
      (parseDigits a xs).bind fun b => parseDigits b ys := by
  induction xs generalizing a with
  | nil => rfl
  | cons c cs ih =>
    simp only [List.cons_append, parseDigits]
    cases charDigit c with
    | none => rfl
    | some d => exact ih _

theorem parseDigits_digits (ds : List Nat) (hds : ∀ d ∈ ds, d < 10) (a : Nat) :
    parseDigits a ((ds.reverse).map digitChar) =
      some (a * 10 ^ ds.length + Nat.ofDigits 10 ds) := by
  induction ds generalizing a with
  | nil => simp [parseDigits, Nat.ofDigits]
  | cons d tl ih =>
    have hd : d < 10 := hds d (List.mem_cons_self ..)
    have htl : ∀ x ∈ tl, x < 10 := fun x hx => hds x (List.mem_cons_of_mem _ hx)
    simp only [List.reverse_cons, List.map_append, List.map_cons, List.map_nil]
    rw [parseDigits_append, ih htl a]
    simp only [Option.some_bind, parseDigits, charDigit_digitChar hd, Nat.ofDigits_cons,
      List.length_cons]
    congr 1
    ring

/-- Formatting a natural number and parsing it back is the identity: the
round-trip property of the `str`/`int` and `strftime`/`strptime` pairs. -/
theorem parseNat_printNat (n : Nat) : parseNat (printNat n) = some n := by
  by_cases h : n = 0
  · subst h; rfl
  · have hne : Nat.digits 10 n ≠ [] := Nat.digits_ne_nil_iff_ne_zero.mpr h
    have hlt : ∀ d ∈ Nat.digits 10 n, d < 10 :=
      fun d hd => Nat.digits_lt_base (by norm_num) hd
    unfold printNat parseNat
    rw [if_neg h]
    show (if ((natDigits n).reverse).map digitChar = [] then none
      else parseDigits 0 (((natDigits n).reverse).map digitChar)) = some n
    rw [natDigits_eq]
    have hne2 : ((Nat.digits 10 n).reverse).map digitChar ≠ [] := by
      simp [hne]
    rw [if_neg hne2, parseDigits_digits _ hlt 0]
    simp [Nat.ofDigits_digits]

/-- `printNat` renders a sample value as expected (sanity check that the
definitions evaluate inside the kernel). -/
example : printNat 20240 = "20240" := by decide

/-! ## History store: `load_history` and `save_today_mentions` -/

/-- Parse one CSV row into `(ticker, record)` as `load_history`'s loop body
does: `datetime.strptime(row["date"], "%Y-%m-%d")` and
`int(row["mentions"])`; `none` models the exception raised on a malformed
cell. -/
def parseRow (r : CsvRow) : Option (String × HistEntry) :=
  match parseNat r.date, parseNat r.mentions with
  | some d, some m => some (r.ticker, ⟨d, m⟩)
  | _, _ => none

/-- Parse every row in file order; any malformed row aborts the load
(the exception propagates out of `load_history`). -/
def parseRows : List CsvRow → Option (List (String × HistEntry))
  | [] => some []
  | r :: rs =>
    match parseRow r, parseRows rs with
    | some p, some ps => some (p :: ps)
    | _, _ => none

/-- `load_history`: read all rows and group them by ticker into a
`defaultdict(list)`; appending in file order per ticker is exactly an
order-preserving filter on the parsed rows.  `none` models an uncaught
`ValueError` from `int(...)` (or a `strptime` failure). -/
def load_history (rows : List CsvRow) : Option History :=
  (parseRows rows).map fun parsed =>
    fun t => (parsed.filter fun p => p.1 = t).map Prod.snd

/-- `save_today_mentions`: append one CSV row per fetched item, with today's
date rendered as a string; a missing `ticker` key is written by the csv
module as the empty cell, a missing `mentions` key defaults to `0`. -/
def save_today_mentions (store : List CsvRow) (data : List FetchItem)
    (today : Nat) : List CsvRow :=
  store ++ data.map fun t =>
    { date := printNat today
      ticker := t.ticker.getD ""
      mentions := printNat (t.mentions.getD 0) }

/-! ## Configuration constants (the CONFIG block of `main.py`) -/

/-- Minimum mentions for any signal. -/
def MENTION_THRESHOLD : Nat := 300

/-- Buy if the ratio is at least 1.3 times the average (and below the sell
threshold). -/
def BUY_LOWER : ℚ := 1.3

/-- Sell if the ratio is at least 1.6 times the average, or on a big drop. -/
def SELL_THRESHOLD : ℚ := 1.6

/-- Sell if today is below 80 percent of yesterday after a spike. -/
def DROP_THRESHOLD : ℚ := 0.8

theorem BUY_LOWER_eq : BUY_LOWER = 13 / 10 := by norm_num [BUY_LOWER]

theorem SELL_THRESHOLD_eq : SELL_THRESHOLD = 8 / 5 := by norm_num [SELL_THRESHOLD]

theorem DROP_THRESHOLD_eq : DROP_THRESHOLD = 4 / 5 := by norm_num [DROP_THRESHOLD]

/-! ## `compute_7day_average` and `get_yesterday_mentions` -/

/-- The list comprehension inside `compute_7day_average`: the mention counts
of all records of `ticker` whose date lies within the last 7 days
(`h["date"] >= today - timedelta(days=7)`). -/
def windowMentions (history : History) (ticker : String) (today : Nat) : List Nat :=
  ((history ticker).filter fun h => decide ((today : ℤ) - 7 ≤ (h.date : ℤ))).map
    HistEntry.mentions

/-- `compute_7day_average`: mean of the mentions within the trailing 7-day
window, `0` when there are none
(`sum(mentions) / len(mentions) if mentions else 0`). -/
def compute_7day_average (history : History) (ticker : String) (today : Nat) : ℚ :=
  if windowMentions history ticker today = [] then 0
  else ((windowMentions history ticker today).sum : ℚ) /
    (windowMentions history ticker today).length

/-- The sort key of `get_yesterday_mentions`: descending by date
(`sorted(..., key=lambda x: x["date"], reverse=True)`).  Any stable sort with
this relation models Python's stable `sorted`. -/
def dateDesc (a b : HistEntry) : Prop := b.date ≤ a.date

instance : DecidableRel dateDesc := fun a b => Nat.decLe b.date a.date

instance : IsTotal HistEntry dateDesc := ⟨fun a b => Nat.le_total b.date a.date⟩

instance : IsTrans HistEntry dateDesc := ⟨fun _ _ _ h1 h2 => Nat.le_trans h2 h1⟩

/-- `get_yesterday_mentions`: the mention count of the most recent record of
`ticker`, `0` when the ticker has no records. -/
def get_yesterday_mentions (history : History) (ticker : String) : Nat :=
  if history ticker = [] then 0
  else
    match List.insertionSort dateDesc (history ticker) with
    | [] => 0
    | e :: _ => e.mentions

/-! ## The loop body of `build_alert_email`: per-record derived values -/

/-- `avg_7d = compute_7day_average(history, ticker)` for one spike record. -/
def avgOf (history : History) (today : Nat) (s : FetchItem) : ℚ :=
  compute_7day_average history (tickerD s) today

/-- `ratio = mentions / avg_7d if avg_7d else 0`. -/
def ratioOf (history : History) (today : Nat) (s : FetchItem) : ℚ :=
  if avgOf history today s = 0 then 0 else (mentionsD s : ℚ) / avgOf history today s

/-- `yesterday_mentions = get_yesterday_mentions(history, ticker)`. -/
def yesterdayOf (history : History) (s : FetchItem) : Nat :=
  get_yesterday_mentions history (tickerD s)

/-- `day_change = (mentions - yesterday_mentions) / yesterday_mentions * 100
if yesterday_mentions else 0`. -/
def dayChangeOf (history : History) (s : FetchItem) : ℚ :=
  if yesterdayOf history s = 0 then 0
  else ((mentionsD s : ℚ) - (yesterdayOf history s : ℚ)) / (yesterdayOf history s : ℚ) * 100

/-! ## Top-3 ranking -/

/-- The sort key of the ranking step: descending by
`x.get("mentions", 0)`. -/
def mentionsDesc (a b : FetchItem) : Prop := mentionsD b ≤ mentionsD a

instance : DecidableRel mentionsDesc := fun a b => Nat.decLe (mentionsD b) (mentionsD a)

instance : IsTotal FetchItem mentionsDesc := ⟨fun a b => Nat.le_total (mentionsD b) (mentionsD a)⟩

instance : IsTrans FetchItem mentionsDesc := ⟨fun _ _ _ h1 h2 => Nat.le_trans h2 h1⟩

/-- `top_spikes = {s.get("ticker") for s in sorted_spikes[:3]}`: the raw
`ticker` values (possibly missing) of the three highest-mention spikes. -/
def topSpikes (spikes : List FetchItem) : List (Option String) :=
  ((List.insertionSort mentionsDesc spikes).take 3).map FetchItem.ticker

/-! ## The two signal conditions -/

/-- The SELL branch condition of `build_alert_email`, verbatim:
`(ratio >= SELL_THRESHOLD and mentions >= MENTION_THRESHOLD and
(mentions >= 800 or ticker in top_spikes)) or
(yesterday_mentions and mentions < yesterday_mentions * DROP_THRESHOLD)`. -/
def sellCond (top : List (Option String)) (history : History) (today : Nat)
    (s : FetchItem) : Prop :=
  (SELL_THRESHOLD ≤ ratioOf history today s ∧ MENTION_THRESHOLD ≤ mentionsD s ∧
    (800 ≤ mentionsD s ∨ some (tickerD s) ∈ top))
  ∨ (yesterdayOf history s ≠ 0 ∧
    (mentionsD s : ℚ) < (yesterdayOf history s : ℚ) * DROP_THRESHOLD)

instance (top : List (Option String)) (history : History) (today : Nat)
    (s : FetchItem) : Decidable (sellCond top history today s) := by
  unfold sellCond; infer_instance

/-- The BUY branch condition of `build_alert_email`, verbatim:
`ratio >= BUY_LOWER and ratio < SELL_THRESHOLD and
mentions >= MENTION_THRESHOLD and day_change > 0` (reached only when the
sell condition is false, since the branch is an `elif`). -/
def buyCond (history : History) (today : Nat) (s : FetchItem) : Prop :=
  BUY_LOWER ≤ ratioOf history today s ∧ ratioOf history today s < SELL_THRESHOLD ∧
  MENTION_THRESHOLD ≤ mentionsD s ∧ 0 < dayChangeOf history s

instance (history : History) (today : Nat) (s : FetchItem) :
    Decidable (buyCond history today s) := by
  unfold buyCond; infer_instance

/-- The label a spike record receives from the `if`/`elif` chain. -/
inductive Signal where
  | buy
  | sell
  | neutral
deriving DecidableEq, Repr

/-- The signal assigned to one spike record by the loop of
`build_alert_email`: the sell branch is tried first, the buy branch is the
`elif`, everything else is summary-only (neutral). -/
def classifySpike (top : List (Option String)) (history : History) (today : Nat)
    (s : FetchItem) : Signal :=
  if sellCond top history today s then Signal.sell
  else if buyCond history today s then Signal.buy
  else Signal.neutral

/-- The spike records that hit the buy branch, in input order. -/
def buyList (top : List (Option String)) (history : History) (today : Nat)
    (spikes : List FetchItem) : List FetchItem :=
  spikes.filter fun s => decide (classifySpike top history today s = Signal.buy)

/-- The spike records that hit the sell branch, in input order. -/
def sellList (top : List (Option String)) (history : History) (today : Nat)
    (spikes : List FetchItem) : List FetchItem :=
  spikes.filter fun s => decide (classifySpike top history today s = Signal.sell)

/-! ## String rendering of the report (`build_alert_email`'s f-strings)

Fixed-point rendering of a float (`f"{x:.0f}"`, `f"{x:.1f}"`, `f"{x:+.1f}"`)
is modelled on `ℚ` with `round`; CPython's half-to-even tie-break differs
from `round` only on exact half-way values, which none of the claims touch. -/

/-- Decimal rendering of an integer. -/
def printInt (z : ℤ) : String :=
  if z < 0 then "-" ++ printNat z.natAbs else printNat z.natAbs

/-- `f"{q:.0f}"`: fixed-point with no decimals. -/
def fmtFixed0 (q : ℚ) : String := printInt (round q)

/-- `f"{q:.1f}"`: fixed-point with one decimal. -/
def fmtFixed1 (q : ℚ) : String :=
  let n : ℤ := round (q * 10)
  (if n < 0 then "-" else "") ++ printNat (n.natAbs / 10) ++ "." ++ printNat (n.natAbs % 10)

/-- `f"{q:+.1f}"`: as `fmtFixed1` but with an explicit plus sign when
nonnegative. -/
def fmtSigned1 (q : ℚ) : String :=
  if q < 0 then fmtFixed1 q else "+" ++ fmtFixed1 q

/-- `trend_text = f"{day_change:+.1f}%" if yesterday_mentions else "n/a"`. -/
def trendTextOf (history : History) (s : FetchItem) : String :=
  if yesterdayOf history s = 0 then "n/a" else fmtSigned1 (dayChangeOf history s) ++ "%"

/-- `ratio_text = f"{ratio:.1f}× avg" if avg_7d else "no avg"`. -/
def ratioTextOf (history : History) (today : Nat) (s : FetchItem) : String :=
  if avgOf history today s = 0 then "no avg"
  else fmtFixed1 (ratioOf history today s) ++ "× avg"

/-- The common tail `{mentions} vs {avg_7d:.0f} ({ratio_text}, {trend_text}
vs yesterday)<br>` of the buy and sell lines. -/
def lineTail (history : History) (today : Nat) (s : FetchItem) : String :=
  printNat (mentionsD s) ++ " vs " ++ fmtFixed0 (avgOf history today s) ++ " (" ++
    ratioTextOf history today s ++ ", " ++ trendTextOf history s ++ " vs yesterday)<br>"

/-- The line appended to `sell_lines` for one record. -/
def sellLine (history : History) (today : Nat) (s : FetchItem) : String :=
  "⚠️ <b>Sell Signal:</b> " ++ tickerD s ++ " — " ++ lineTail history today s

/-- The line appended to `buy_lines` for one record. -/
def buyLine (history : History) (today : Nat) (s : FetchItem) : String :=
  "🚀 <b>Buy Signal:</b> " ++ tickerD s ++ " — " ++ lineTail history today s

/-- The line appended to `summary_lines` for every record. -/
def summaryLine (history : History) (today : Nat) (s : FetchItem) : String :=
  "📊 " ++ tickerD s ++ ": " ++ printNat (mentionsD s) ++ " mentions (7d avg: " ++
    fmtFixed0 (avgOf history today s) ++ ", " ++ trendTextOf history s ++
    " vs yesterday)<br>"

/-- The three accumulator strings of `build_alert_email`'s loop. -/
structure Lines where
  buy : String
  sell : String
  summary : String
deriving DecidableEq, Repr

/-- One iteration of the loop `for s in spikes`: append to `sell_lines`,
`buy_lines` (via the `elif`), and always to `summary_lines`. -/
def spikeStep (top : List (Option String)) (history : History) (today : Nat)
    (acc : Lines) (s : FetchItem) : Lines :=
  if sellCond top history today s then
    { acc with
      sell := acc.sell ++ sellLine history today s
      summary := acc.summary ++ summaryLine history today s }
  else if buyCond history today s then
    { acc with
      buy := acc.buy ++ buyLine history today s
      summary := acc.summary ++ summaryLine history today s }
  else
    { acc with summary := acc.summary ++ summaryLine history today s }

/-- The whole loop, starting from the three empty strings. -/
def spikeLines (top : List (Option String)) (history : History) (today : Nat)
    (spikes : List FetchItem) : Lines :=
  spikes.foldl (spikeStep top history today) ⟨"", "", ""⟩

/-- `build_alert_email`: early return on an empty spike list, otherwise the
three sections assembled in order, the buy and sell headers only when their
line strings are nonempty. -/
def build_alert_email (spikes : List FetchItem) (history : History) (today : Nat) :
    String :=
  if spikes = [] then "<p>No significant WSB mention spikes today.</p>"
  else
    let L := spikeLines (topSpikes spikes) history today spikes
    (if L.buy ≠ "" then "<h3>🚀 Buy Alerts</h3>" ++ L.buy ++ "<br>" else "")
    ++ (if L.sell ≠ "" then "<h3>⚠️ Sell Alerts</h3>" ++ L.sell ++ "<br>" else "")
    ++ "<h3>📊 Daily Summary (8 AM PT)</h3>" ++ L.summary
    ++ "<p style=\x27font-size:12px;color:gray;\x27>Auto-generated with momentum + spike logic for profit-taking.</p>"

/-! ## The orchestrator `run_alert` -/

/-- The spike filter of `run_alert`:
`[t for t in data if t.get("mentions", 0) >= MENTION_THRESHOLD]`. -/
def spikesOf (data : List FetchItem) : List FetchItem :=
  data.filter fun t => decide (MENTION_THRESHOLD ≤ mentionsD t)

/-- The observable outcome of one run: the history file afterwards, the HTML
body handed to the notifier (if any), and the printed log lines. -/
structure RunResult where
  store : List CsvRow
  emailHtml : Option String
  log : List String
deriving Repr

/-- `run_alert`: fetch result is a parameter (the HTTP call is external);
an empty fetch aborts with a log line only; otherwise persist today's
mentions, reload the history, classify the spikes and hand the rendered
report to the notifier.  `none` models the run dying on an uncaught
exception from `load_history`. -/
def run_alert (data : List FetchItem) (store : List CsvRow) (today : Nat) :
    Option RunResult :=
  if data = [] then
    some { store := store, emailHtml := none, log := ["No data from API — aborting run."] }
  else
    let store2 := save_today_mentions store data today
    match load_history store2 with
    | none => none
    | some history =>
      some { store := store2
             emailHtml := some (build_alert_email (spikesOf data) history today)
             log := [] }

/-! ## Structure of the rendered report -/

/-- Concatenation of a list of report lines. -/
def concatS : List String → String
  | [] => ""
  | s :: rest => s ++ concatS rest

/-- Characterisation of the report loop: the final accumulator is the initial
one followed by, per section, the concatenated lines of exactly the records
that hit that branch, in input order. -/
theorem foldl_spikeStep (top : List (Option String)) (history : History) (today : Nat)
    (spikes : List FetchItem) (acc : Lines) :
    spikes.foldl (spikeStep top history today) acc =
      { buy := acc.buy ++
          concatS ((buyList top history today spikes).map (buyLine history today))
        sell := acc.sell ++
          concatS ((sellList top history today spikes).map (sellLine history today))
        summary := acc.summary ++ concatS (spikes.map (summaryLine history today)) } := by
  induction spikes generalizing acc with
  | nil =>
    simp [buyList, sellList, concatS]
  | cons s rest ih =>
    rw [List.foldl_cons, ih]
    by_cases hs : sellCond top history today s
    · simp [spikeStep, hs, buyList, sellList, classifySpike, List.filter_cons, concatS,
        String.append_assoc]
    · by_cases hb : buyCond history today s
      · simp [spikeStep, hs, hb, buyList, sellList, classifySpike, List.filter_cons,
          concatS, String.append_assoc]
      · simp [spikeStep, hs, hb, buyList, sellList, classifySpike, List.filter_cons,
          concatS, String.append_assoc]

theorem spikeLines_eq (top : List (Option String)) (history : History) (today : Nat)
    (spikes : List FetchItem) :
    spikeLines top history today spikes =
      { buy := concatS ((buyList top history today spikes).map (buyLine history today))
        sell := concatS ((sellList top history today spikes).map (sellLine history today))
        summary := concatS (spikes.map (summaryLine history today)) } := by
  rw [spikeLines, foldl_spikeStep]
  simp

/-- C6: the report renderer is a pure function of its inputs — rendering the
same classified set twice yields byte-identical output — and each section
lists its records in input order: the summary section carries one line per
spike in input order, and the buy and sell sections carry one line per
buy- or sell-classified record in input order (the top-3 ranking step affects
only which records classify as sells, via `topSpikes`, not the output
order). -/
theorem renderer_deterministic_and_ordered (spikes : List FetchItem)
    (history : History) (today : Nat) :
    build_alert_email spikes history today = build_alert_email spikes history today ∧
    (spikeLines (topSpikes spikes) history today spikes).summary
        = concatS (spikes.map (summaryLine history today)) ∧
    (spikeLines (topSpikes spikes) history today spikes).buy
        = concatS ((buyList (topSpikes spikes) history today spikes).map
            (buyLine history today)) ∧
    (spikeLines (topSpikes spikes) history today spikes).sell
        = concatS ((sellList (topSpikes spikes) history today spikes).map
            (sellLine history today)) := by
  refine ⟨rfl, ?_, ?_, ?_⟩ <;> rw [spikeLines_eq]

/-- C4: an empty fetch result makes the orchestrator log one line and stop:
the history store is returned unchanged, no row is appended, and no email
body is produced. -/
theorem run_alert_empty_fetch (data : List FetchItem) (store : List CsvRow)
    (today : Nat) (h : data = []) :
    run_alert data store today =
      some { store := store
             emailHtml := none
             log := ["No data from API — aborting run."] } := by
  subst h
  rfl

/-- Witness for C4 at a concrete store. -/
theorem run_alert_empty_fetch_witness :
    run_alert [] [⟨"100", "GME", "5"⟩] 200 =
      some { store := [⟨"100", "GME", "5"⟩]
             emailHtml := none
             log := ["No data from API — aborting run."] } :=
  run_alert_empty_fetch [] [⟨"100", "GME", "5"⟩] 200 rfl

/-- C3: a ticker with no records inside the trailing 7-day window has
average `0`, and the ratio guard then yields ratio `0` instead of dividing:
both computations are total and return `0`. -/
theorem avg_zero_ratio_zero (history : History) (today : Nat) (s : FetchItem)
    (h : windowMentions history (tickerD s) today = []) :
    avgOf history today s = 0 ∧ ratioOf history today s = 0 := by
  have havg : avgOf history today s = 0 := by
    rw [avgOf, compute_7day_average, if_pos h]
  exact ⟨havg, by rw [ratioOf, if_pos havg]⟩

/-- Witness for C3: a ticker whose only record is older than 7 days. -/
theorem avg_zero_ratio_zero_witness :
    windowMentions (fun t => if t = "GME" then [⟨10, 500⟩] else []) "GME" 100 = [] ∧
    avgOf (fun t => if t = "GME" then [⟨10, 500⟩] else []) 100 ⟨some "GME", some 400⟩ = 0 ∧
    ratioOf (fun t => if t = "GME" then [⟨10, 500⟩] else []) 100 ⟨some "GME", some 400⟩ = 0 := by
  have h : windowMentions (fun t => if t = "GME" then [⟨10, 500⟩] else []) "GME" 100 = [] := by
    simp [windowMentions]
  have h2 := avg_zero_ratio_zero (fun t => if t = "GME" then [⟨10, 500⟩] else [])
    100 ⟨some "GME", some 400⟩ (by simpa [tickerD] using h)
  exact ⟨h, h2⟩

/-- Every record in the buy list is a spike record. -/
theorem buyList_subset (top : List (Option String)) (history : History) (today : Nat)
    (spikes : List FetchItem) (s : FetchItem)
    (h : s ∈ buyList top history today spikes) : s ∈ spikes :=
  List.mem_of_mem_filter h

/-- Every record in the sell list is a spike record. -/
theorem sellList_subset (top : List (Option String)) (history : History) (today : Nat)
    (spikes : List FetchItem) (s : FetchItem)
    (h : s ∈ sellList top history today spikes) : s ∈ spikes :=
  List.mem_of_mem_filter h

/-- C7: a record with fewer than `MENTION_THRESHOLD` mentions is filtered out
of the spike list by `run_alert`, so over a full run it reaches neither the
buy list nor the sell list of the report, whatever its ratio or history. -/
theorem below_threshold_neutral (history : History) (today : Nat)
    (data : List FetchItem) (s : FetchItem)
    (h : mentionsD s < MENTION_THRESHOLD) :
    s ∉ spikesOf data ∧
    s ∉ buyList (topSpikes (spikesOf data)) history today (spikesOf data) ∧
    s ∉ sellList (topSpikes (spikesOf data)) history today (spikesOf data) := by
  have hns : s ∉ spikesOf data := by
    intro hmem
    have := (List.mem_filter.mp hmem).2
    simp only [decide_eq_true_eq] at this
    omega
  exact ⟨hns,
    fun hb => hns (buyList_subset _ _ _ _ _ hb),
    fun hs => hns (sellList_subset _ _ _ _ _ hs)⟩

/-- Witness for C7: a 250-mention record is excluded even with an enormous
ratio (empty history means the code would compute ratio 0 anyway; the record
simply never reaches classification). -/
theorem below_threshold_neutral_witness :
    mentionsD ⟨some "BB", some 250⟩ < MENTION_THRESHOLD ∧
    ⟨some "BB", some 250⟩ ∉ spikesOf [⟨some "BB", some 250⟩, ⟨some "GME", some 400⟩] ∧
    (⟨some "BB", some 250⟩ : FetchItem) ∉
      buyList (topSpikes (spikesOf [⟨some "BB", some 250⟩, ⟨some "GME", some 400⟩]))
        (fun _ => []) 100 (spikesOf [⟨some "BB", some 250⟩, ⟨some "GME", some 400⟩]) ∧
    (⟨some "BB", some 250⟩ : FetchItem) ∉
      sellList (topSpikes (spikesOf [⟨some "BB", some 250⟩, ⟨some "GME", some 400⟩]))
        (fun _ => []) 100 (spikesOf [⟨some "BB", some 250⟩, ⟨some "GME", some 400⟩]) := by
  have h : mentionsD ⟨some "BB", some 250⟩ < MENTION_THRESHOLD := by decide
  have h2 := below_threshold_neutral (fun _ => []) 100
    [⟨some "BB", some 250⟩, ⟨some "GME", some 400⟩] ⟨some "BB", some 250⟩ h
  exact ⟨h, h2⟩

/-! ## The buy rule (C1) -/

/-- History used to refute the unguarded buy rule: ticker `ABC` averaged 300
mentions over the window (400 yesterday, 200 the day before). -/
def C1hist : History := fun t => if t = "ABC" then [⟨99, 400⟩, ⟨98, 200⟩] else []

/-- Spike record for `ABC` with 400 mentions today. -/
def C1spike : FetchItem := ⟨some "ABC", some 400⟩

/-- C1 counterexample: `ABC` has 400 mentions (≥ 300) and ratio 4/3, which
satisfies `1.3 ≤ ratio < 1.6 < 2.0`, yet its day-over-day change is 0 (it
had 400 mentions yesterday as well), so the buy branch's additional
`day_change > 0` test fails and the buy list stays empty — the claim's
"with no further conditions" is false on the code. -/
theorem buy_needs_more_than_ratio_cex :
    MENTION_THRESHOLD ≤ mentionsD C1spike ∧
    BUY_LOWER ≤ ratioOf C1hist 100 C1spike ∧
    ratioOf C1hist 100 C1spike < 2 ∧
    spikesOf [C1spike] = [C1spike] ∧
    buyList (topSpikes (spikesOf [C1spike])) C1hist 100 (spikesOf [C1spike]) = [] := by
  have hw : windowMentions C1hist "ABC" 100 = [400, 200] := by decide
  have ht : tickerD C1spike = "ABC" := rfl
  have havg : avgOf C1hist 100 C1spike = 300 := by
    rw [avgOf, ht, compute_7day_average, hw, if_neg (List.cons_ne_nil _ _)]
    norm_num
  have hratio : ratioOf C1hist 100 C1spike = 4 / 3 := by
    rw [ratioOf, havg]
    norm_num [mentionsD, C1spike]
  have hy : yesterdayOf C1hist C1spike = 400 := by decide
  have hdc : dayChangeOf C1hist C1spike = 0 := by
    rw [dayChangeOf, hy]
    norm_num [mentionsD, C1spike]
  have hnsell : ¬ sellCond (topSpikes (spikesOf [C1spike])) C1hist 100 C1spike := by
    rw [sellCond]
    rintro (⟨h1, -, -⟩ | ⟨-, h2⟩)
    · rw [hratio] at h1
      norm_num [SELL_THRESHOLD] at h1
    · rw [hy] at h2
      norm_num [DROP_THRESHOLD, mentionsD, C1spike] at h2
  have hnbuy : ¬ buyCond C1hist 100 C1spike := by
    intro h
    have := h.2.2.2
    rw [hdc] at this
    exact lt_irrefl 0 this
  have hsp : spikesOf [C1spike] = [C1spike] := by decide
  refine ⟨by decide, ?_, ?_, hsp, ?_⟩
  · rw [hratio, BUY_LOWER_eq]; norm_num
  · rw [hratio]; norm_num
  · rw [hsp] at hnsell ⊢
    simp [buyList, List.filter_cons, classifySpike, hnsell, hnbuy]

/-- C1 amended: a spike with `mentions ≥ MENTION_THRESHOLD` and
`BUY_LOWER ≤ ratio < SELL_THRESHOLD` (1.6, not 2.0) is labelled Buy
provided additionally its day-over-day change is positive and the
day-over-day drop clause of the sell branch does not fire. -/
theorem buy_rule (history : History) (today : Nat) (spikes : List FetchItem)
    (s : FetchItem) (hmem : s ∈ spikes)
    (hm : MENTION_THRESHOLD ≤ mentionsD s)
    (hr1 : BUY_LOWER ≤ ratioOf history today s)
    (hr2 : ratioOf history today s < SELL_THRESHOLD)
    (hdc : 0 < dayChangeOf history s)
    (hdrop : ¬ (yesterdayOf history s ≠ 0 ∧
      (mentionsD s : ℚ) < (yesterdayOf history s : ℚ) * DROP_THRESHOLD)) :
    s ∈ buyList (topSpikes spikes) history today spikes := by
  have hnsell : ¬ sellCond (topSpikes spikes) history today s := by
    rintro (⟨h1, -, -⟩ | h2)
    · exact absurd h1 (not_le.mpr hr2)
    · exact hdrop h2
  have hbuy : buyCond history today s := ⟨hr1, hr2, hm, hdc⟩
  have hclass : classifySpike (topSpikes spikes) history today s = Signal.buy := by
    rw [classifySpike, if_neg hnsell, if_pos hbuy]
  exact List.mem_filter.mpr ⟨hmem, by rw [hclass]; rfl⟩

/-- History for the C1 witness: `ABC` had 300 mentions yesterday, so today's
400 is a +33% day-over-day move at ratio 4/3. -/
def C1whist : History := fun t => if t = "ABC" then [⟨99, 300⟩] else []

/-- Witness for the amended buy rule at a concrete input. -/
theorem buy_rule_witness :
    MENTION_THRESHOLD ≤ mentionsD C1spike ∧
    BUY_LOWER ≤ ratioOf C1whist 100 C1spike ∧
    ratioOf C1whist 100 C1spike < SELL_THRESHOLD ∧
    0 < dayChangeOf C1whist C1spike ∧
    C1spike ∈ buyList (topSpikes [C1spike]) C1whist 100 [C1spike] := by
  have hw : windowMentions C1whist "ABC" 100 = [300] := by decide
  have ht : tickerD C1spike = "ABC" := rfl
  have havg : avgOf C1whist 100 C1spike = 300 := by
    rw [avgOf, ht, compute_7day_average, hw, if_neg (List.cons_ne_nil _ _)]
    norm_num
  have hratio : ratioOf C1whist 100 C1spike = 4 / 3 := by
    rw [ratioOf, havg]
    norm_num [mentionsD, C1spike]
  have hy : yesterdayOf C1whist C1spike = 300 := by decide
  have hdc : dayChangeOf C1whist C1spike = 100 / 3 := by
    rw [dayChangeOf, hy]
    norm_num [mentionsD, C1spike]
  have hr1 : BUY_LOWER ≤ ratioOf C1whist 100 C1spike := by
    rw [hratio, BUY_LOWER_eq]; norm_num
  have hr2 : ratioOf C1whist 100 C1spike < SELL_THRESHOLD := by
    rw [hratio, SELL_THRESHOLD_eq]; norm_num
  have hdcpos : 0 < dayChangeOf C1whist C1spike := by rw [hdc]; norm_num
  refine ⟨by decide, hr1, hr2, hdcpos, ?_⟩
  exact buy_rule C1whist 100 [C1spike] C1spike (List.mem_singleton.mpr rfl)
    (by decide) hr1 hr2 hdcpos
    (by
      rintro ⟨-, h2⟩
      rw [hy] at h2
      norm_num [DROP_THRESHOLD, mentionsD, C1spike] at h2)

/-! ## The sell rule (C2) -/

/-- History used to refute the 2.0 sell multiplier: `XYZ` averaged 500
mentions over the window. -/
def C2hist : History := fun t => if t = "XYZ" then [⟨99, 500⟩] else []

/-- Spike record for `XYZ` with 900 mentions today: ratio 1.8. -/
def C2spike : FetchItem := ⟨some "XYZ", some 900⟩

/-- C2 counterexample: `XYZ` has ratio 9/5 = 1.8, which is below the
claimed `SELL_MULTIPLIER = 2.0`, yet the code's threshold is
`SELL_THRESHOLD = 1.6`, so with 900 ≥ 800 mentions the record lands in the
sell list — refuting "Sell exactly when ... ratio ≥ 2.0". -/
theorem sell_at_ratio_below_two_cex :
    ratioOf C2hist 100 C2spike < 2 ∧
    MENTION_THRESHOLD ≤ mentionsD C2spike ∧
    spikesOf [C2spike] = [C2spike] ∧
    C2spike ∈ sellList (topSpikes (spikesOf [C2spike])) C2hist 100 (spikesOf [C2spike]) := by
  have hw : windowMentions C2hist "XYZ" 100 = [500] := by decide
  have ht : tickerD C2spike = "XYZ" := rfl
  have havg : avgOf C2hist 100 C2spike = 500 := by
    rw [avgOf, ht, compute_7day_average, hw, if_neg (List.cons_ne_nil _ _)]
    norm_num
  have hratio : ratioOf C2hist 100 C2spike = 9 / 5 := by
    rw [ratioOf, havg]
    norm_num [mentionsD, C2spike]
  have hsell : sellCond (topSpikes (spikesOf [C2spike])) C2hist 100 C2spike := by
    rw [sellCond]
    refine Or.inl ⟨?_, by decide, Or.inl (by decide)⟩
    rw [hratio, SELL_THRESHOLD_eq]
    norm_num
  have hsp : spikesOf [C2spike] = [C2spike] := by decide
  rw [hsp] at hsell
  refine ⟨by rw [hratio]; norm_num, by decide, hsp, ?_⟩
  rw [hsp]
  refine List.mem_filter.mpr ⟨List.mem_singleton.mpr rfl, ?_⟩
  rw [classifySpike, if_pos hsell]
  rfl

/-- C2 amended: a spike is classified Sell exactly when
(`ratio ≥ SELL_THRESHOLD` (1.6, not 2.0) and `mentions ≥ MENTION_THRESHOLD`
and (`mentions ≥ 800` or the ticker is among the top-3 by raw mention count
this run)) **or** the day-over-day drop rule fires (yesterday's count is
nonzero and today's is below `DROP_THRESHOLD` times it): the drop rule is a
disjunct of this very classification, not a separate policy. -/
theorem sell_rule_iff (history : History) (today : Nat) (spikes : List FetchItem)
    (s : FetchItem) :
    s ∈ sellList (topSpikes spikes) history today spikes ↔
      s ∈ spikes ∧
      ((SELL_THRESHOLD ≤ ratioOf history today s ∧
          MENTION_THRESHOLD ≤ mentionsD s ∧
          (800 ≤ mentionsD s ∨ some (tickerD s) ∈ topSpikes spikes)) ∨
        (yesterdayOf history s ≠ 0 ∧
          (mentionsD s : ℚ) < (yesterdayOf history s : ℚ) * DROP_THRESHOLD)) := by
  rw [sellList, List.mem_filter]
  constructor
  · rintro ⟨hmem, hcl⟩
    simp only [decide_eq_true_eq] at hcl
    refine ⟨hmem, ?_⟩
    by_contra hnot
    have hnot2 : ¬ sellCond (topSpikes spikes) history today s := hnot
    rw [classifySpike, if_neg hnot2] at hcl
    by_cases hb : buyCond history today s
    · rw [if_pos hb] at hcl; exact Signal.noConfusion hcl
    · rw [if_neg hb] at hcl; exact Signal.noConfusion hcl
  · rintro ⟨hmem, hcond⟩
    refine ⟨hmem, ?_⟩
    simp only [decide_eq_true_eq]
    have hcond2 : sellCond (topSpikes spikes) history today s := hcond
    rw [classifySpike, if_pos hcond2]

/-! ## Error behaviour of loading and classifying (C8) -/

/-- C8 counterexample: a history row whose `mentions` cell is not a numeral
makes `int(row["mentions"])` raise, so `load_history` fails instead of
skipping the record — the claim that loading never raises on malformed
records is false. -/
theorem load_history_raises_cex :
    load_history [⟨"100", "GME", "abc"⟩] = none := rfl

/-- C8 amended: the classifier itself has no error conditions — a record
with a missing `mentions` key is classified exactly as one with `mentions=0`,
and a record with a missing `ticker` key exactly as one with ticker `"???"`
— but `load_history` is not total: it fails (raises) on a row whose
`mentions` cell is malformed rather than skipping it. -/
theorem classifier_total_loader_fails :
    (∀ (top : List (Option String)) (history : History) (today : Nat) (t : Option String),
      classifySpike top history today ⟨t, none⟩ = classifySpike top history today ⟨t, some 0⟩) ∧
    (∀ (top : List (Option String)) (history : History) (today : Nat) (m : Option Nat),
      classifySpike top history today ⟨none, m⟩ =
        classifySpike top history today ⟨some "???", m⟩) ∧
    load_history [⟨"100", "AMC", "x9"⟩] = none :=
  ⟨fun _ _ _ _ => rfl, fun _ _ _ _ => rfl, rfl⟩

/-! ## Persistence round-trip (C5) -/

theorem parseRows_append (xs ys : List CsvRow) :
    parseRows (xs ++ ys) =
      (parseRows xs).bind fun a => (parseRows ys).map fun b => a ++ b := by
  induction xs with
  | nil =>
    simp only [List.nil_append, parseRows, Option.some_bind]
    cases parseRows ys <;> rfl
  | cons r rs ih =>
    rw [List.cons_append]
    show (match parseRow r, parseRows (rs ++ ys) with
        | some p, some ps => some (p :: ps)
        | _, _ => none) =
      ((match parseRow r, parseRows rs with
        | some p, some ps => some (p :: ps)
        | _, _ => none).bind fun a => (parseRows ys).map fun b => a ++ b)
    rw [ih]
    cases parseRow r with
    | none =>
      cases parseRows rs with
      | none => rfl
      | some a => cases parseRows ys <;> rfl
    | some p =>
      cases parseRows rs with
      | none => rfl
      | some a => cases parseRows ys <;> rfl

/-- The rows appended by `save_today_mentions` always parse back, to today's
date and the saved mention counts, keyed by the written ticker cell. -/
theorem parseRows_save (data : List FetchItem) (today : Nat) :
    parseRows (data.map fun t =>
        ({ date := printNat today
           ticker := t.ticker.getD ""
           mentions := printNat (t.mentions.getD 0) } : CsvRow)) =
      some (data.map fun t => (t.ticker.getD "", (⟨today, mentionsD t⟩ : HistEntry))) := by
  induction data with
  | nil => rfl
  | cons t rest ih =>
    simp only [List.map_cons, parseRows, parseRow, parseNat_printNat, ih, mentionsD]

/-- Loading after saving: the resulting history groups the parsed prior rows
together with today's just-saved records, per ticker in file order. -/
theorem load_history_save (store : List CsvRow) (data : List FetchItem) (today : Nat)
    (l0 : List (String × HistEntry)) (hl0 : parseRows store = some l0) :
    load_history (save_today_mentions store data today) =
      some (fun tk =>
        (((l0 ++ data.map fun t => (t.ticker.getD "", (⟨today, mentionsD t⟩ : HistEntry))).filter
          fun p => p.1 = tk).map Prod.snd)) := by
  rw [load_history, save_today_mentions, parseRows_append, hl0, parseRows_save]
  rfl

/-- Grouping the saved rows of well-formed records by ticker is the same as
filtering the records themselves by ticker. -/
theorem grouped_saved_rows (data : List FetchItem) (today : Nat) (tk : String)
    (hwf : ∀ t ∈ data, t.ticker ≠ none) :
    (((data.map fun t => (t.ticker.getD "", (⟨today, mentionsD t⟩ : HistEntry))).filter
        fun p => p.1 = tk).map Prod.snd) =
      ((data.filter fun t => t.ticker == some tk).map
        fun t => (⟨today, mentionsD t⟩ : HistEntry)) := by
  induction data with
  | nil => rfl
  | cons t rest ih =>
    obtain ⟨a, ha⟩ : ∃ a, t.ticker = some a :=
      Option.ne_none_iff_exists'.mp (hwf t (List.mem_cons_self ..))
    have ihr := ih fun r hr => hwf r (List.mem_cons_of_mem _ hr)
    by_cases h : a = tk
    · subst h
      simp [List.filter_cons, ha, ihr]
    · simp [List.filter_cons, ha, h, ihr]

/-- C5: persistence round-trip.  Appending any sequence of well-formed
records (ticker present, mentions defaulting to 0 when absent) for a given
date to an empty store and loading again succeeds and returns exactly those
records, grouped by ticker in input order, each with the stored date string
parsed back to the same day and the same mention count. -/
theorem persistence_roundtrip (data : List FetchItem) (today : Nat)
    (hwf : ∀ t ∈ data, t.ticker ≠ none) :
    ∃ h : History, load_history (save_today_mentions [] data today) = some h ∧
      ∀ tk : String, h tk =
        ((data.filter fun t => t.ticker == some tk).map
          fun t => (⟨today, mentionsD t⟩ : HistEntry)) := by
  refine ⟨_, load_history_save [] data today [] rfl, fun tk => ?_⟩
  simpa using grouped_saved_rows data today tk hwf

/-- Witness for C5 on a two-ticker, three-record store. -/
theorem persistence_roundtrip_witness :
    (∀ t ∈ [(⟨some "GME", some 400⟩ : FetchItem), ⟨some "AMC", some 120⟩,
        ⟨some "GME", some 7⟩], t.ticker ≠ none) ∧
    ∃ h : History,
      load_history (save_today_mentions []
        [⟨some "GME", some 400⟩, ⟨some "AMC", some 120⟩, ⟨some "GME", some 7⟩] 20240) = some h ∧
      ∀ tk : String, h tk =
        (([(⟨some "GME", some 400⟩ : FetchItem), ⟨some "AMC", some 120⟩,
            ⟨some "GME", some 7⟩].filter fun t => t.ticker == some tk).map
          fun t => (⟨20240, mentionsD t⟩ : HistEntry)) := by
  have hwf : ∀ t ∈ [(⟨some "GME", some 400⟩ : FetchItem), ⟨some "AMC", some 120⟩,
      ⟨some "GME", some 7⟩], t.ticker ≠ none := by decide
  exact ⟨hwf, persistence_roundtrip _ 20240 hwf⟩

/-! ## Today's just-saved row dominates the history (C9, C10) -/

/-- If every record of a ticker is dated at most `today` and exactly one
record `⟨today, m⟩` is dated `today`, then `get_yesterday_mentions` (which
takes the head of the date-descending stable sort) returns `m`. -/
theorem get_yesterday_unique (history : History) (tk : String) (today m : Nat)
    (hle : ∀ e ∈ history tk, e.date ≤ today)
    (hfil : (history tk).filter (fun e => e.date = today) = [⟨today, m⟩]) :
    get_yesterday_mentions history tk = m := by
  have hmem : (⟨today, m⟩ : HistEntry) ∈ history tk := by
    have h1 : (⟨today, m⟩ : HistEntry) ∈ (history tk).filter (fun e => e.date = today) := by
      rw [hfil]; exact List.mem_singleton.mpr rfl
    exact List.mem_of_mem_filter h1
  have hne : history tk ≠ [] := by
    intro h
    rw [h] at hfil
    exact List.noConfusion hfil
  rw [get_yesterday_mentions, if_neg hne]
  have hperm := List.perm_insertionSort dateDesc (history tk)
  have hsorted := List.sorted_insertionSort dateDesc (history tk)
  cases hs : List.insertionSort dateDesc (history tk) with
  | nil =>
    rw [hs] at hperm
    exact absurd hperm.symm.eq_nil hne
  | cons e tail =>
    show e.mentions = m
    rw [hs] at hperm hsorted
    have hemem : e ∈ history tk := hperm.subset (List.mem_cons_self ..)
    have htm : (⟨today, m⟩ : HistEntry) ∈ e :: tail := hperm.mem_iff.mpr hmem
    rcases List.mem_cons.mp htm with heq | htail
    · rw [← heq]
    · have hrel : dateDesc e ⟨today, m⟩ := List.rel_of_sorted_cons hsorted _ htail
      have hdate : e.date = today := le_antisymm (hle e hemem) hrel
      have hef : e ∈ (history tk).filter (fun x => x.date = today) :=
        List.mem_filter.mpr ⟨hemem, by simp [hdate]⟩
      rw [hfil] at hef
      rw [List.mem_singleton.mp hef]

/-- Filtering a mapped list is mapping the filtered list. -/
theorem map_filter_comm {α β : Type} (f : α → β) (p : β → Bool) (l : List α) :
    (l.map f).filter p = (l.filter fun a => p (f a)).map f := by
  induction l with
  | nil => rfl
  | cons a l ih =>
    simp only [List.map_cons, List.filter_cons]
    by_cases h : p (f a) = true
    · simp [h, ih]
    · simp [h, ih]

/-- Under distinct, present tickers, filtering the fetched records by the
ticker of one of them yields exactly that record. -/
theorem filter_ticker_singleton (data : List FetchItem) (s : FetchItem) (tk : String)
    (hs : s ∈ data) (htk : s.ticker = some tk)
    (hwf : ∀ t ∈ data, t.ticker ≠ none)
    (hnd : (data.map FetchItem.ticker).Nodup) :
    (data.filter fun t => t.ticker.getD "" = tk) = [s] := by
  induction data with
  | nil => cases hs
  | cons t rest ih =>
    rw [List.map_cons, List.nodup_cons] at hnd
    rcases List.mem_cons.mp hs with rfl | hsrest
    · have hcond : decide (s.ticker.getD "" = tk) = true := by rw [htk]; simp
      have hrestnil : (rest.filter fun t => t.ticker.getD "" = tk) = [] := by
        rw [List.filter_eq_nil_iff]
        intro r hr
        simp only [decide_eq_true_eq]
        intro hcell
        obtain ⟨b, hb⟩ := Option.ne_none_iff_exists'.mp (hwf r (List.mem_cons_of_mem _ hr))
        rw [hb, Option.getD_some] at hcell
        exact hnd.1 (List.mem_map.mpr ⟨r, hr, by rw [hb, hcell, ← htk]⟩)
      simp [List.filter_cons, hcond, hrestnil]
    · have htne : decide (t.ticker.getD "" = tk) = false := by
        simp only [decide_eq_false_iff_not]
        intro hcell
        obtain ⟨b, hb⟩ := Option.ne_none_iff_exists'.mp (hwf t (List.mem_cons_self ..))
        rw [hb, Option.getD_some] at hcell
        exact hnd.1 (List.mem_map.mpr ⟨s, hsrest, by rw [htk, ← hcell, ← hb]⟩)
      rw [List.filter_cons, htne]
      exact ih hsrest (fun r hr => hwf r (List.mem_cons_of_mem _ hr)) hnd.2

/-- C10: because `run_alert` persists today's mentions before reloading the
history, the trailing 7-day window used for the ratio's denominator already
contains today's own mention count: for every fetched record with a present
ticker, its count is a member of the list that `compute_7day_average`
averages. -/
theorem window_includes_today (store : List CsvRow) (data : List FetchItem)
    (today : Nat) (hist : History)
    (hload : load_history (save_today_mentions store data today) = some hist)
    (s : FetchItem) (hs : s ∈ data) (tk : String) (htk : s.ticker = some tk) :
    mentionsD s ∈ windowMentions hist tk today := by
  rw [load_history, save_today_mentions, parseRows_append, parseRows_save] at hload
  cases hl0 : parseRows store with
  | none =>
    rw [hl0] at hload
    exact Option.noConfusion hload
  | some l0 =>
    rw [hl0, Option.some_bind, Option.map_some', Option.map_some'] at hload
    have hhist := (Option.some.inj hload).symm
    have hentry : (⟨today, mentionsD s⟩ : HistEntry) ∈ hist tk := by
      rw [hhist]
      refine List.mem_map.mpr ⟨(tk, ⟨today, mentionsD s⟩), ?_, rfl⟩
      refine List.mem_filter.mpr ⟨?_, by simp⟩
      exact List.mem_append_right _ (List.mem_map.mpr ⟨s, hs, by rw [htk]; rfl⟩)
    refine List.mem_map.mpr ⟨⟨today, mentionsD s⟩, ?_, rfl⟩
    refine List.mem_filter.mpr ⟨hentry, ?_⟩
    simp only [decide_eq_true_eq]
    omega

/-- Witness for C10: a single fetched record on an empty store. -/
theorem window_includes_today_witness :
    ∃ hist : History,
      load_history (save_today_mentions [] [⟨some "GME", some 400⟩] 100) = some hist ∧
      mentionsD ⟨some "GME", some 400⟩ ∈ windowMentions hist "GME" 100 := by
  refine ⟨_, load_history_save [] [⟨some "GME", some 400⟩] 100 [] rfl, ?_⟩
  exact window_includes_today [] [⟨some "GME", some 400⟩] 100 _
    (load_history_save [] [⟨some "GME", some 400⟩] 100 [] rfl)
    ⟨some "GME", some 400⟩ (List.mem_singleton.mpr rfl) "GME" rfl

/-- If every spike's `get_yesterday_mentions` equals its own mention count
(the just-saved row), `day_change` is 0 for every spike, so the buy branch
never fires: the buy list and the buy section are empty. -/
theorem no_buy_of_yesterday_eq_today (hist : History) (today : Nat)
    (spikes : List FetchItem)
    (hy : ∀ s ∈ spikes, yesterdayOf hist s = mentionsD s) :
    buyList (topSpikes spikes) hist today spikes = [] ∧
    (spikeLines (topSpikes spikes) hist today spikes).buy = "" := by
  have hbl : buyList (topSpikes spikes) hist today spikes = [] := by
    rw [buyList, List.filter_eq_nil_iff]
    intro s hs
    simp only [decide_eq_true_eq]
    have hdc0 : dayChangeOf hist s = 0 := by
      rw [dayChangeOf, hy s hs]
      by_cases hm0 : mentionsD s = 0
      · rw [if_pos hm0]
      · rw [if_neg hm0]
        simp
    intro hcl
    rw [classifySpike] at hcl
    by_cases hsell : sellCond (topSpikes spikes) hist today s
    · rw [if_pos hsell] at hcl
      exact Signal.noConfusion hcl
    · rw [if_neg hsell] at hcl
      by_cases hbuy : buyCond hist today s
      · have h4 := hbuy.2.2.2
        rw [hdc0] at h4
        exact lt_irrefl 0 h4
      · rw [if_neg hbuy] at hcl
        exact Signal.noConfusion hcl
  refine ⟨hbl, ?_⟩
  rw [spikeLines_eq]
  show concatS ((buyList (topSpikes spikes) hist today spikes).map (buyLine hist today)) = ""
  rw [hbl]
  rfl

/-- C9: persist-before-load suppresses every Buy signal on a fresh day.  If
the prior store parses with all dates strictly before today, and the fetched
records carry distinct, present tickers (so each fetched ticker gains
exactly one history row dated today — its just-saved one), then after
`run_alert`'s `save_today_mentions` / `load_history` sequence,
`get_yesterday_mentions` returns today's own just-saved count for every
spike, `day_change` is 0, the buy branch's `day_change > 0` test always
fails, and the report's buy section is empty. -/
theorem no_buy_on_fresh_day (store : List CsvRow) (data : List FetchItem)
    (today : Nat) (l0 : List (String × HistEntry))
    (hl0 : parseRows store = some l0)
    (hold : ∀ p ∈ l0, p.2.date < today)
    (hwf : ∀ t ∈ data, t.ticker ≠ none)
    (hnd : (data.map FetchItem.ticker).Nodup) :
    ∃ hist : History,
      load_history (save_today_mentions store data today) = some hist ∧
      buyList (topSpikes (spikesOf data)) hist today (spikesOf data) = [] ∧
      (spikeLines (topSpikes (spikesOf data)) hist today (spikesOf data)).buy = "" := by
  refine ⟨_, load_history_save store data today l0 hl0,
    no_buy_of_yesterday_eq_today _ today (spikesOf data) ?_⟩
  intro s hs
  have hsdata : s ∈ data := List.mem_of_mem_filter hs
  obtain ⟨tk, htk⟩ := Option.ne_none_iff_exists'.mp (hwf s hsdata)
  have htD : tickerD s = tk := by rw [tickerD, htk]; rfl
  -- the saved rows carrying this ticker are exactly today's row for `s`
  have hsaved : ((data.map fun t =>
        (t.ticker.getD "", (⟨today, mentionsD t⟩ : HistEntry))).filter
          fun p => p.1 = tk) = [(tk, ⟨today, mentionsD s⟩)] := by
    rw [map_filter_comm, filter_ticker_singleton data s tk hsdata htk hwf hnd]
    simp [htk]
  -- the reloaded record list of this ticker: the old rows then today's row
  have hgrp : (((l0 ++ data.map fun t =>
        (t.ticker.getD "", (⟨today, mentionsD t⟩ : HistEntry))).filter
          fun p => p.1 = tk).map Prod.snd) =
      ((l0.filter fun p => p.1 = tk).map Prod.snd) ++ [⟨today, mentionsD s⟩] := by
    rw [List.filter_append, List.map_append, hsaved]
    rfl
  rw [yesterdayOf, htD]
  apply get_yesterday_unique _ _ today
  · intro e he
    rw [hgrp] at he
    rcases List.mem_append.mp he with hobs | hnew
    · obtain ⟨p, hp, hpe⟩ := List.mem_map.mp hobs
      have hlt := hold p (List.mem_of_mem_filter hp)
      rw [← hpe]
      omega
    · rw [List.mem_singleton.mp hnew]
  · rw [hgrp, List.filter_append]
    have hob : ((l0.filter fun p => p.1 = tk).map Prod.snd).filter
        (fun e => e.date = today) = [] := by
      rw [List.filter_eq_nil_iff]
      intro e he
      obtain ⟨p, hp, hpe⟩ := List.mem_map.mp he
      have hlt := hold p (List.mem_of_mem_filter hp)
      simp only [decide_eq_true_eq]
      rw [← hpe]
      omega
    rw [hob]
    simp

/-- Witness for C9: one fetched ticker, a prior store with one old row. -/
theorem no_buy_on_fresh_day_witness :
    parseRows [⟨"99", "GME", "350"⟩] = some [("GME", ⟨99, 350⟩)] ∧
    ∃ hist : History,
      load_history (save_today_mentions [⟨"99", "GME", "350"⟩]
        [⟨some "GME", some 400⟩] 100) = some hist ∧
      buyList (topSpikes (spikesOf [⟨some "GME", some 400⟩])) hist 100
        (spikesOf [⟨some "GME", some 400⟩]) = [] ∧
      (spikeLines (topSpikes (spikesOf [⟨some "GME", some 400⟩])) hist 100
        (spikesOf [⟨some "GME", some 400⟩])).buy = "" := by
  have hp : parseRows [⟨"99", "GME", "350"⟩] = some [("GME", ⟨99, 350⟩)] := by decide
  refine ⟨hp, no_buy_on_fresh_day [⟨"99", "GME", "350"⟩] [⟨some "GME", some 400⟩]
    100 [("GME", ⟨99, 350⟩)] hp ?_ ?_ ?_⟩
  · intro p hp2
    rw [List.mem_singleton.mp hp2]
    decide
  · intro t ht
    rw [List.mem_singleton.mp ht]
    decide
  · decide
